import Mathlib

/-!
Shallow embedding of `app/core/security.py` (`SecurityManager`) from the
AI_CONTROL repository, together with theorems settling the frozen claims
about it.

Conventions of the embedding:
* Python strings are modeled as `List Char` (with `String` wrappers at the
  API boundary); all concrete inputs are ASCII, where Python's `str.lower`,
  `str.strip`, `str.split` agree with the models below.
* Wall-clock time is modeled as a `Nat` of seconds; `datetime` values that
  the code truncates to the minute become `(now / 60) * 60`.
* Python's `re.search(pattern, s)` returns a match object iff some suffix
  position of `s` admits a match; the `Rx` matcher below decides exactly
  that existence, for the constructs the source patterns use (literals,
  character classes, `\s`, `.`, `+`, `*`, and the one negative lookahead
  `(?!list)`).  `re.IGNORECASE` matching is modeled by matching the
  lowercased input, which is equivalent for these patterns (their literals
  and classes are all lowercase).
* The mutable `SecurityManager` state that the claims touch
  (`command_history`) is threaded explicitly; functions mutating it return
  `Bool × SecState`.
-/

/-- Python `str` whitespace for `strip`/`split` (ASCII subset). -/
def wsChar (c : Char) : Bool :=
  c == ' ' || c == '\t' || c == '\n' || c == '\r' || c == Char.ofNat 11 || c == Char.ofNat 12

/-- Model of `s.lower()` (ASCII-faithful). -/
def lowChars (l : List Char) : List Char := l.map Char.toLower

/-- Model of `s.strip()`: drop leading and trailing whitespace. -/
def pyStrip (l : List Char) : List Char :=
  (((l.dropWhile wsChar).reverse).dropWhile wsChar).reverse

/-- Model of `command.lower().strip()` — the normalization `is_command_safe` applies first. -/
def normCmd (l : List Char) : List Char := pyStrip (lowChars l)

/-- First whitespace-separated token, i.e. `s.split()[0]` (`[]` when none). -/
def firstTok (l : List Char) : List Char :=
  (l.dropWhile wsChar).takeWhile (fun c => !(wsChar c))

/-- Does the second list start with the first (Python `str.startswith`)? -/
def leadsWith : List Char → List Char → Bool
  | [], _ => true
  | _ :: _, [] => false
  | a :: pre, b :: l => a == b && leadsWith pre l

/-- Python substring containment `needle in hay`. -/
def hasSub (needle : List Char) : List Char → Bool
  | [] => leadsWith needle []
  | c :: t => leadsWith needle (c :: t) || hasSub needle t

/-- Abstract syntax for the regular-expression subset used by the source. -/
inductive Rx : Type where
  | eps : Rx
  | anyc : Rx                 -- `.` (matches any char except newline)
  | lit : Char → Rx           -- a literal character
  | cls : List Char → Rx      -- a character class `[...]`
  | wsp : Rx                  -- `\s`
  | rng : Char → Char → Rx    -- a class range such as `[a-z]`
  | seq : Rx → Rx → Rx
  | star : Rx → Rx            -- `*`
  | nla : Rx → Rx             -- negative lookahead `(?! ...)`

/-- Structural size of a pattern, used to bound matcher recursion depth. -/
def rxSize : Rx → Nat
  | .seq a b => rxSize a + rxSize b + 1
  | .star a => rxSize a + 1
  | .nla a => rxSize a + 1
  | _ => 1

/-- Fueled CPS backtracking matcher: `mtch f r s k` decides whether some
split `s = u ++ v` lets `r` match `u` with the continuation `k` accepting
`v`.  Fuel only bounds recursion depth; `rxFuel` below always provides
enough for the patterns in this file (star bodies all consume a char). -/
def mtch : Nat → Rx → List Char → (List Char → Bool) → Bool
  | 0, _, _, _ => false
  | _ + 1, .eps, s, k => k s
  | _ + 1, .anyc, s, k =>
    match s with
    | [] => false
    | c :: t => !(c == '\n') && k t
  | _ + 1, .lit a, s, k =>
    match s with
    | [] => false
    | c :: t => (c == a) && k t
  | _ + 1, .cls l, s, k =>
    match s with
    | [] => false
    | c :: t => l.contains c && k t
  | _ + 1, .wsp, s, k =>
    match s with
    | [] => false
    | c :: t => wsChar c && k t
  | _ + 1, .rng a b, s, k =>
    match s with
    | [] => false
    | c :: t => (decide (a ≤ c) && decide (c ≤ b)) && k t
  | f + 1, .seq a b, s, k => mtch f a s (fun t => mtch f b t k)
  | f + 1, .star a, s, k => k s || mtch f a s (fun t => mtch f (.star a) t k)
  | f + 1, .nla a, s, k => !(mtch f a s (fun _ => true)) && k s

/-- Fuel that is ample for every pattern/input pair in this development. -/
def rxFuel (r : Rx) (s : List Char) : Nat := rxSize r + 2 * s.length + 16

/-- Does `r` match starting exactly at the head of `s`? -/
def rxMatchAt (r : Rx) (s : List Char) : Bool := mtch (rxFuel r s) r s (fun _ => true)

/-- Model of `re.search` existence: does `r` match at some position of `s`? -/
def rxSearchL (r : Rx) : List Char → Bool
  | [] => rxMatchAt r []
  | c :: t => rxMatchAt r (c :: t) || rxSearchL r t

/-- A sequence of literal characters. -/
def rStr (s : String) : Rx := s.toList.foldr (fun c r => .seq (.lit c) r) .eps

/-- Concatenation of a list of patterns. -/
def rCat (l : List Rx) : Rx := l.foldr .seq .eps

/-- Model of `x+` as `x x*`. -/
def rPlus (a : Rx) : Rx := .seq a (.star a)

/-- Model of `\s+` -/
def rWsp : Rx := rPlus .wsp

/-- Model of `.*` -/
def rDotStar : Rx := .star .anyc

/-- Model of `self.dangerous_patterns` compiled (source lines 23–45), in order:
`format\s+[a-z]:`, `del\s+/[sfrq]`, `rm\s+-rf\s+/`, `shutdown\s+[⁄-]`
(the class holds a forward slash and a dash),
`reboot`, `fdisk`, `reg\s+delete`, `sc\s+delete`, `net\s+user.*delete`,
`taskkill\s+/f`, `wmic\s+.*delete`,
`powershell.*remove-item.*-force.*-recurse`, `cmd.*rd\s+/s\s+/q`,
`cipher\s+/w`, `sdelete`, `bcdedit`, `diskpart\s+(?!list)`,
`attrib\s+.*\+s\s+.*\+h`, `icacls.*deny`, `takeown`, `cacls.*deny`. -/
def dangerousPatterns : List Rx :=
  [ rCat [rStr "format", rWsp, .rng 'a' 'z', .lit ':'],
    rCat [rStr "del", rWsp, .lit '/', .cls ['s', 'f', 'r', 'q']],
    rCat [rStr "rm", rWsp, rStr "-rf", rWsp, .lit '/'],
    rCat [rStr "shutdown", rWsp, .cls ['/', '-']],
    rStr "reboot",
    rStr "fdisk",
    rCat [rStr "reg", rWsp, rStr "delete"],
    rCat [rStr "sc", rWsp, rStr "delete"],
    rCat [rStr "net", rWsp, rStr "user", rDotStar, rStr "delete"],
    rCat [rStr "taskkill", rWsp, rStr "/f"],
    rCat [rStr "wmic", rWsp, rDotStar, rStr "delete"],
    rCat [rStr "powershell", rDotStar, rStr "remove-item", rDotStar,
          rStr "-force", rDotStar, rStr "-recurse"],
    rCat [rStr "cmd", rDotStar, rStr "rd", rWsp, rStr "/s", rWsp, rStr "/q"],
    rCat [rStr "cipher", rWsp, rStr "/w"],
    rStr "sdelete",
    rStr "bcdedit",
    rCat [rStr "diskpart", rWsp, .nla (rStr "list")],
    rCat [rStr "attrib", rWsp, rDotStar, .lit '+', .lit 's', rWsp,
          rDotStar, .lit '+', .lit 'h'],
    rCat [rStr "icacls", rDotStar, rStr "deny"],
    rStr "takeown",
    rCat [rStr "cacls", rDotStar, rStr "deny"] ]

/-- Model of `_has_path_traversal`'s `traversal_patterns` (source lines 280–287):
`\.\.[\\/]`, `[\\/]\.\.[\\/]`, `\.\.[\\/]\.\.[\\/]`, `%2e%2e[\\/]`,
`\.\.%2f`, `\.\.%5c`. -/
def traversalPatterns : List Rx :=
  [ rCat [.lit '.', .lit '.', .cls ['\\', '/']],
    rCat [.cls ['\\', '/'], .lit '.', .lit '.', .cls ['\\', '/']],
    rCat [.lit '.', .lit '.', .cls ['\\', '/'], .lit '.', .lit '.', .cls ['\\', '/']],
    rCat [rStr "%2e%2e", .cls ['\\', '/']],
    rStr "..%2f",
    rStr "..%5c" ]

/-- Deny-pattern hit as the code computes it: the dangerous patterns are
searched (with `re.IGNORECASE`) in `command.lower().strip()`
(source lines 72–78). -/
def denyHit (c : String) : Bool :=
  dangerousPatterns.any (fun r => rxSearchL r (normCmd c.toList))

/-- Case-insensitive deny-pattern match on the command string itself
(no whitespace stripping) — the literal reading of "the command matches a
deny pattern, matched case-insensitively". -/
def denyMatchesRaw (c : String) : Bool :=
  dangerousPatterns.any (fun r => rxSearchL r (lowChars c.toList))

/-- Model of `self.safe_commands["system"]` (source lines 49–54). -/
def safeSystem : List String :=
  ["dir", "ls", "pwd", "whoami", "date", "time", "hostname",
   "ipconfig", "ifconfig", "ping", "tracert", "nslookup",
   "systeminfo", "ver", "uname", "ps", "top", "htop",
   "netstat", "tasklist", "diskpart list"]

/-- Model of `self.safe_commands["file"]` (source lines 55–58). -/
def safeFile : List String :=
  ["copy", "cp", "move", "mv", "mkdir", "md", "type", "cat",
   "more", "less", "head", "tail", "find", "where", "which"]

/-- Model of `self.safe_commands["safe_apps"]` (source lines 59–62). -/
def safeApps : List String :=
  ["notepad", "calc", "mspaint", "wordpad", "explorer",
   "chrome", "firefox", "code", "notepad++"]

/-- The `self.safe_commands` dict: `command_type in self.safe_commands`
lookup (source line 81). -/
def allowListFor : String → Option (List String)
  | "system" => some safeSystem
  | "file" => some safeFile
  | "safe_apps" => some safeApps
  | _ => none

/-- Model of `command_base`: first token of the normalized command, `""` when the
normalized command has no tokens (source line 83). -/
def tokStr (c : String) : String := String.mk (firstTok (normCmd c.toList))

/-- The allow-list fast accept (source lines 81–85): the command type has a
configured list and the command's first token is in it. -/
def fastAccept (c t : String) : Bool :=
  match allowListFor t with
  | some safeList => safeList.contains (tokStr c)
  | none => false

/-- The "additional safety checks" substring list (source lines 88–91). -/
def dangerSubs : List String :=
  ["format", "fdisk", "delete system", "remove-item", "rm -rf /",
   "del /f /s /q", "shutdown", "reboot", "restart", "logoff"]

/-- Heuristic dangerous-keyword hit: any of `dangerSubs` occurs in the
normalized command. -/
def heuristicHit (c : String) : Bool :=
  dangerSubs.any (fun d => hasSub d.toList (normCmd c.toList))

/-- Protected filesystem roots scanned by `is_command_safe`
(source lines 96–98). -/
def rootDirs : List String :=
  ["c:\\windows", "/etc", "/bin", "/usr", "/sys", "/proc"]

/-- Destructive verbs scanned next to a protected root (source line 99). -/
def destructiveActions : List String := ["delete", "remove", "rm", "del"]

/-- The protected-root + destructive-action check (source lines 96–101):
both a root and an action occur as substrings of the normalized command. -/
def rootHit (c : String) : Bool :=
  rootDirs.any (fun r => hasSub r.toList (normCmd c.toList)) &&
    destructiveActions.any (fun a => hasSub a.toList (normCmd c.toList))

/-- Model of `_has_path_traversal(command)` (source lines 278–292): the traversal
patterns are searched with `re.IGNORECASE` in the RAW command (no strip). -/
def traversalHit (c : String) : Bool :=
  traversalPatterns.any (fun r => rxSearchL r (lowChars c.toList))

/-- Model of `self.command_history`: a dict from minute-truncated timestamps to
counts, modeled as an association list in insertion order. -/
structure SecState where
  history : List (Nat × Nat)
deriving Repr, DecidableEq

/-- Model of `self.max_commands_per_minute` (source line 67). -/
def maxCommandsPerMinute : Nat := 20

/-- The "clean old entries" dict comprehension (source lines 128–131):
keep buckets with `timestamp > minute_ago`. -/
def pruneHistory (h : List (Nat × Nat)) (now : Nat) : List (Nat × Nat) :=
  h.filter (fun e => decide (now - 60 < e.1))

/-- Model of `sum(self.command_history.values())` (source line 134). -/
def totalCount (h : List (Nat × Nat)) : Nat := (h.map (fun e => e.2)).sum

/-- Model of `self.command_history[k] = self.command_history.get(k, 0) + 1`
(source line 141): bump the bucket in place, or append a fresh one. -/
def bumpBucket : List (Nat × Nat) → Nat → List (Nat × Nat)
  | [], k => [(k, 1)]
  | e :: t, k => if e.1 == k then (e.1, e.2 + 1) :: t else e :: bumpBucket t k

/-- Model of `_check_rate_limit` (source lines 121–143), fault-free path: prune,
sum, deny without incrementing at the limit, else increment the
current-minute bucket and allow. -/
def checkRateLimit (st : SecState) (now : Nat) : Bool × SecState :=
  let pruned := pruneHistory st.history now
  if maxCommandsPerMinute ≤ totalCount pruned then (false, ⟨pruned⟩)
  else (true, ⟨bumpBucket pruned ((now / 60) * 60)⟩)

/-- Model of `is_command_safe(command, command_type)` (source lines 69–119),
fault-free path, with the mutable rate-limit state and the current time
made explicit.  The check order is the code's: deny-pattern veto, then the
allow-list fast accept, then the heuristic keyword scan, then the
protected-root check, then path traversal, then the rate limit, then the
default allow. -/
def is_command_safe (st : SecState) (now : Nat) (command commandType : String) :
    Bool × SecState :=
  if denyHit command then (false, st)
  else if fastAccept command commandType then (true, st)
  else if heuristicHit command then (false, st)
  else if rootHit command then (false, st)
  else if traversalHit command then (false, st)
  else
    let r := checkRateLimit st now
    if r.1 then (true, r.2) else (false, r.2)

/-- Model of `is_command_safe` when an unexpected exception is raised inside its own
`try` block (outside `_check_rate_limit`'s inner handler): the
`except` at source lines 117–119 catches it and returns `False`, with the
state as it stood. -/
def is_command_safe_body_fault (st : SecState) : Bool × SecState := (false, st)

/-- Model of `is_command_safe` when an unexpected exception is raised inside
`_check_rate_limit`'s bookkeeping: the inner handler at source lines
145–147 catches it and returns `True` ("Default to allow if check fails"),
so the call proceeds exactly like the fault-free path except that the rate
check reports success without touching the counters. -/
def is_command_safe_rate_fault (st : SecState) (command commandType : String) :
    Bool × SecState :=
  if denyHit command then (false, st)
  else if fastAccept command commandType then (true, st)
  else if heuristicHit command then (false, st)
  else if rootHit command then (false, st)
  else if traversalHit command then (false, st)
  else (true, st)

/-- Fold a list of `(now, command, command_type)` calls through
`is_command_safe`, keeping only the state. -/
def runSafe (st : SecState) (calls : List (Nat × String × String)) : SecState :=
  calls.foldl (fun s c => (is_command_safe s c.1 c.2.1 c.2.2).2) st

/-- Repeat the same `is_command_safe` call `n` times, threading the state;
the Bool is the conjunction of all the verdicts. -/
def callN : Nat → SecState → Nat → String → String → Bool × SecState
  | 0, st, _, _, _ => (true, st)
  | n + 1, st, now, c, t =>
    let r := is_command_safe st now c t
    let rest := callN n r.2 now c t
    (r.1 && rest.1, rest.2)

/-- Model of `protected_paths` of `check_file_safety` (source lines 251–255). -/
def protectedPaths : List String :=
  ["c:\\windows", "c:\\program files", "c:\\system32",
   "/etc", "/bin", "/usr/bin", "/sbin", "/usr/sbin",
   "/sys", "/proc", "/dev"]

/-- Model of `dangerous_extensions` of `check_file_safety` (source line 265). -/
def dangerousExt : List String :=
  [".exe", ".bat", ".cmd", ".ps1", ".vbs", ".js", ".jar"]

/-- Model of `file_path.lower().split('.')[-1] if '.' in file_path else ""`
(source line 267): the lowercased text after the last dot. -/
def fileExt (path : String) : List Char :=
  if path.toList.contains '.' then
    ((lowChars path.toList).reverse.takeWhile (fun c => !(c == '.'))).reverse
  else []

/-- Model of `check_file_safety(file_path, operation)` (source lines 245–276),
fault-free path. -/
def check_file_safety (path op : String) : Bool :=
  let pl := lowChars path.toList
  if (op == "delete" || op == "modify" || op == "write")
      && protectedPaths.any (fun pre => leadsWith (lowChars pre.toList) pl) then
    false
  else if op == "execute"
      && dangerousExt.any (fun d => d.toList == '.' :: fileExt path) then
    false
  else true

/-- The character class removed by `sanitize_input`
(`re.sub(r'[<>"\';\\]', '', ...)`, source line 188). -/
def forbiddenChar (c : Char) : Bool :=
  c == '<' || c == '>' || c == Char.ofNat 34 || c == Char.ofNat 39 ||
    c == ';' || c == Char.ofNat 92

/-- Model of `sanitize_input(user_input)` (source lines 184–198), fault-free path:
remove forbidden characters, truncate to 1000, strip. -/
def sanitizeInputL (l : List Char) : List Char :=
  let sanitized := l.filter (fun c => !(forbiddenChar c))
  let clipped := if 1000 < sanitized.length then sanitized.take 1000 else sanitized
  pyStrip clipped

/-- The spec's description of sanitization, taken at its word: strip the
fixed forbidden-character set from the input, then truncate to 1000
characters, then trim leading/trailing whitespace. -/
def sanitizeSpecL (l : List Char) : List Char :=
  pyStrip ((l.filter (fun c => !(forbiddenChar c))).take 1000)

/-- String-level `sanitize_input`. -/
def sanitize_input (s : String) : String := String.mk (sanitizeInputL s.toList)

/-- JWT claim values: the embedding needs strings (e.g. a user name) and
integers (the `exp` timestamp).  A string claim stands for non-numeric
text. -/
inductive CVal : Type where
  | s : String → CVal
  | n : Nat → CVal
deriving Repr, DecidableEq

/-- A JWT payload: a mapping from claim names to values, modeled as an
association list in insertion order (Python dicts have unique keys). -/
abbrev Payload := List (String × CVal)

/-- Dict lookup. -/
def lookupP (p : Payload) (k : String) : Option CVal :=
  (p.find? (fun e => e.1 == k)).map (fun e => e.2)

/-- Model of `to_encode.update({"exp": expire})` (source line 158): dict update —
replace the value of an existing key in place (dict keys are unique, so
replacing the first occurrence models it exactly), else append. -/
def setClaim : Payload → String → CVal → Payload
  | [], k, v => [(k, v)]
  | e :: t, k, v => if e.1 == k then (k, v) :: t else e :: setClaim t k v

/-- Idealized MAC standing in for `jwt.encode`'s HS256 signature: the tag
determines (key, payload) exactly, modeling an unforgeable,
perfectly-binding signature.  Cryptographic collisions are idealized
away. -/
def signTag (key : Nat) (p : Payload) : Nat × Payload := (key, p)

/-- An encoded token: payload plus signature over it. -/
structure Token where
  payload : Payload
  tag : Nat × Payload
deriving Repr, DecidableEq

/-- Model of `timedelta(hours=24)` default expiry (source line 156), in seconds. -/
def defaultTTL : Nat := 24 * 3600

/-- Model of `create_access_token(data, expires_delta)` (source lines 149–164):
copy the claims, set `exp = now + (ttl or 24h)`, sign. -/
def create_access_token (key : Nat) (data : Payload) (now : Nat)
    (ttl : Option Nat) : Token :=
  let expire := now + (match ttl with | some d => d | none => defaultTTL)
  let toEncode := setClaim data "exp" (.n expire)
  ⟨toEncode, signTag key toEncode⟩

/-- The jwt library's failure kinds as `verify_token` observes them:
`jwt.ExpiredSignatureError` and the broader `jwt.JWTError` (bad signature
or malformed claims). -/
inductive JwtErr : Type where
  | expiredSignature : JwtErr
  | jwtError : JwtErr
deriving Repr, DecidableEq

/-- Model of `jwt.decode(token, key, algorithms=["HS256"])`: verify the signature
first; then, when an `exp` claim is present, fail with
`ExpiredSignatureError` iff `exp < now`; a non-integer `exp` is a
malformed-claims failure (`JWTError`). -/
def jwtDecode (key : Nat) (tok : Token) (now : Nat) : Except JwtErr Payload :=
  if tok.tag = signTag key tok.payload then
    match lookupP tok.payload "exp" with
    | some (.n e) => if e < now then .error .expiredSignature else .ok tok.payload
    | some (.s _) => .error .jwtError
    | none => .ok tok.payload
  else .error .jwtError

/-- A raised Python exception: its class and its message.  Both failure
paths of `verify_token` raise the generic `Exception` class. -/
structure PyExc where
  cls : String
  msg : String
deriving Repr, DecidableEq

/-- Model of `verify_token(token)` (source lines 166–174): return the payload, or
re-raise the jwt failures as `Exception("Token has expired")` /
`Exception("Invalid token")`. -/
def verify_token (key : Nat) (tok : Token) (now : Nat) : Except PyExc Payload :=
  match jwtDecode key tok now with
  | .ok p => .ok p
  | .error .expiredSignature => .error ⟨"Exception", "Token has expired"⟩
  | .error .jwtError => .error ⟨"Exception", "Invalid token"⟩

/-- C1 (amended): for every rate-limiter state, time, command and
command_type, if the command AS `is_command_safe` NORMALIZES IT (lowercased
and stripped of surrounding whitespace, which is how the code applies its
case-insensitive deny-pattern search) matches at least one deny pattern,
then `is_command_safe` returns false.  The amendment is forced by
`c1_claim_cex`: matching the un-stripped command is not sufficient. -/
theorem c1_deny_pattern_veto (st : SecState) (now : Nat) (c t : String)
    (h : denyHit c = true) : (is_command_safe st now c t).1 = false := by
  simp [is_command_safe, h]

/-- C1 witness: `"rm -rf /"` matches a deny pattern and is denied. -/
theorem c1_deny_pattern_veto_witness :
    denyHit "rm -rf /" = true ∧
      (is_command_safe ⟨[]⟩ 3600 "rm -rf /" "system").1 = false :=
  ⟨by decide, c1_deny_pattern_veto ⟨[]⟩ 3600 "rm -rf /" "system" (by decide)⟩

/-- C1 counterexample to the claim as stated: `"diskpart "` (trailing
space) matches the deny pattern `diskpart\s+(?!list)` case-insensitively,
yet `is_command_safe` returns true for it, because the code strips
surrounding whitespace before matching and the stripped `"diskpart"` no
longer matches. -/
theorem c1_claim_cex :
    denyMatchesRaw "diskpart " = true ∧
      (is_command_safe ⟨[]⟩ 3600 "diskpart " "system").1 = true := by
  decide

/-- C3 (amended): a command containing a path-traversal pattern (matched
case-insensitively on the raw command text, as `_has_path_traversal` does)
is denied for every state, time and command_type — UNLESS the command is
first accepted by the allow-list fast path, which the code runs before the
traversal check.  The amendment is forced by `c3_claim_cex`. -/
theorem c3_traversal_denied (st : SecState) (now : Nat) (c t : String)
    (hT : traversalHit c = true) (hF : fastAccept c t = false) :
    (is_command_safe st now c t).1 = false := by
  rcases Bool.eq_false_or_eq_true (denyHit c) with h1 | h1 <;>
    rcases Bool.eq_false_or_eq_true (heuristicHit c) with h2 | h2 <;>
      rcases Bool.eq_false_or_eq_true (rootHit c) with h3 | h3 <;>
        simp [is_command_safe, h1, h2, h3, hF, hT]

/-- C3 witness: the spec's own example `"../../etc/passwd"` is denied. -/
theorem c3_traversal_denied_witness :
    (is_command_safe ⟨[]⟩ 3600 "../../etc/passwd" "system").1 = false :=
  c3_traversal_denied ⟨[]⟩ 3600 "../../etc/passwd" "system" (by decide) (by decide)

/-- C3 counterexample to the claim as stated: `"cat ../../etc/passwd"`
matches the traversal pattern `\.\.[\\/]`, yet with command_type `"file"`
it is allowed, because the first token `cat` is in the `"file"` allow-list
and that fast accept runs before the traversal check. -/
theorem c3_claim_cex :
    traversalHit "cat ../../etc/passwd" = true ∧
      (is_command_safe ⟨[]⟩ 3600 "cat ../../etc/passwd" "file").1 = true := by
  decide

/-- C8 (confirmed): a command whose first whitespace-separated token (after
the code's lowercasing normalization; the configured lists are lowercase)
is in the allow-list configured for its command_type, and which matches no
deny pattern (the code searches the normalized command; a command whose raw
text matches no pattern case-insensitively also matches none after
normalization, since stripping only removes surrounding whitespace), is
accepted — for every rate-limiter state and time. -/
theorem c8_allowlist_fast_accept (st : SecState) (now : Nat) (c t : String)
    (safeList : List String) (hL : allowListFor t = some safeList)
    (hTok : safeList.contains (tokStr c) = true)
    (hDeny : denyHit c = false) : (is_command_safe st now c t).1 = true := by
  have hF : fastAccept c t = true := by
    unfold fastAccept
    rw [hL]
    exact hTok
  simp [is_command_safe, hDeny, hF]

/-- C8 witness: `"dir"` with command_type `"system"`. -/
theorem c8_allowlist_fast_accept_witness :
    (is_command_safe ⟨[]⟩ 3600 "dir" "system").1 = true :=
  c8_allowlist_fast_accept ⟨[]⟩ 3600 "dir" "system" safeSystem rfl
    (by decide) (by decide)

/-- C4: faults inside `is_command_safe`'s own try-block fail closed
(return false), but a fault inside `_check_rate_limit` is caught by that
subroutine's own handler, which returns True ("Default to allow if check
fails"), so the current call is ALLOWED — fail open, contradicting the
claim's (and the spec's §7) fail-closed policy for rate-limit bookkeeping
faults.  The second conjunct evaluates the embedded code at the failing
input. -/
theorem c4_fault_fail_open :
    (∀ st : SecState, (is_command_safe_body_fault st).1 = false) ∧
      (is_command_safe_rate_fault ⟨[]⟩ "echo hi" "system").1 = true :=
  ⟨fun _ => rfl, by decide⟩

/-- C2 (amended): with the command passing every content check (no deny
pattern, no heuristic keyword, no protected-root action, no traversal) and
NOT accepted via the allow-list fast path — which the code runs before the
rate limiter, so allow-listed commands bypass rate limiting entirely —
(a) whenever the retained window already holds at least
`max_commands_per_minute` commands, the call is denied purely by the rate
limiter, and (b) once every bucket has aged past the one-minute window,
the call is accepted again. -/
theorem c2_rate_limit_amended (st : SecState) (now : Nat) (c t : String)
    (h1 : denyHit c = false) (h2 : fastAccept c t = false)
    (h3 : heuristicHit c = false) (h4 : rootHit c = false)
    (h5 : traversalHit c = false) :
    (maxCommandsPerMinute ≤ totalCount (pruneHistory st.history now) →
        (is_command_safe st now c t).1 = false) ∧
      ((∀ e ∈ st.history, e.1 ≤ now - 60) →
        (is_command_safe st now c t).1 = true) := by
  constructor
  · intro hs
    simp [is_command_safe, h1, h2, h3, h4, h5, checkRateLimit, hs]
  · intro hall
    have hp : pruneHistory st.history now = [] := by
      refine List.filter_eq_nil_iff.mpr ?_
      intro e he
      simp only [decide_eq_true_eq]
      exact Nat.not_lt.mpr (hall e he)
    simp [is_command_safe, h1, h2, h3, h4, h5, checkRateLimit, hp, totalCount,
      maxCommandsPerMinute]

/-- C2 witness: with a full current bucket the unlisted benign command
`"hello"` is denied; with only a stale bucket it is accepted again. -/
theorem c2_rate_limit_witness :
    (is_command_safe ⟨[(3600, 20)]⟩ 3600 "hello" "system").1 = false ∧
      (is_command_safe ⟨[(3480, 20)]⟩ 3600 "hello" "system").1 = true := by
  refine ⟨(c2_rate_limit_amended ⟨[(3600, 20)]⟩ 3600 "hello" "system"
    (by decide) (by decide) (by decide) (by decide) (by decide)).1 (by decide),
    (c2_rate_limit_amended ⟨[(3480, 20)]⟩ 3600 "hello" "system"
    (by decide) (by decide) (by decide) (by decide) (by decide)).2 (by decide)⟩

/-- C2 counterexample to the claim as stated: starting from the empty
window, twenty calls with the benign unlisted command `"hello"` are all
accepted; the very next call in the same window with `"hello"` is indeed
rate-limited, but the otherwise-safe allow-listed command `"dir"`
(command_type `"system"`) is still accepted, because the allow-list fast
path runs before the rate limiter — refuting "the very next call returns
false ... for an otherwise-safe command of any command_type". -/
theorem c2_claim_cex :
    (callN 20 ⟨[]⟩ 3600 "hello" "system").1 = true ∧
      (is_command_safe (callN 20 ⟨[]⟩ 3600 "hello" "system").2 3600
        "hello" "system").1 = false ∧
      (is_command_safe (callN 20 ⟨[]⟩ 3600 "hello" "system").2 3600
        "dir" "system").1 = true := by
  decide

/-- Helper: updating a key makes it look up to the new value. -/
theorem lookup_setClaim_self (p : Payload) (k : String) (v : CVal) :
    lookupP (setClaim p k v) k = some v := by
  induction p with
  | nil => simp [setClaim, lookupP, List.find?]
  | cons e t ih =>
    by_cases he : e.1 == k
    · simp [setClaim, he, lookupP, List.find?]
    · simp only [setClaim, he, if_false, Bool.false_eq_true]
      simpa [lookupP, List.find?, he] using ih

/-- Helper: updating one key leaves every other key's lookup unchanged. -/
theorem lookup_setClaim_ne (p : Payload) (k k2 : String) (v : CVal)
    (h : k2 ≠ k) : lookupP (setClaim p k v) k2 = lookupP p k2 := by
  have hkk2 : (k == k2) = false := beq_eq_false_iff_ne.mpr (Ne.symm h)
  induction p with
  | nil => simp [setClaim, lookupP, List.find?, hkk2]
  | cons e t ih =>
    by_cases he : e.1 == k
    · have he1 : e.1 = k := by exact beq_iff_eq.mp he
      simp [setClaim, he, lookupP, List.find?, hkk2, he1]
    · simp only [setClaim, he, if_false, Bool.false_eq_true]
      by_cases he2 : e.1 == k2
      · simp [lookupP, List.find?, he2]
      · simpa [lookupP, List.find?, he2] using ih

/-- Helper: verifying a freshly created token either reports expiry (when
the embedded `exp` is in the past) or returns the encoded payload. -/
theorem verify_create (key now ttl t : Nat) (data : Payload) :
    verify_token key (create_access_token key data now (some ttl)) t =
      if now + ttl < t then Except.error ⟨"Exception", "Token has expired"⟩
      else Except.ok (setClaim data "exp" (.n (now + ttl))) := by
  have h1 : jwtDecode key (create_access_token key data now (some ttl)) t =
      if now + ttl < t then Except.error JwtErr.expiredSignature
      else Except.ok (setClaim data "exp" (.n (now + ttl))) := by
    unfold jwtDecode create_access_token
    simp [lookup_setClaim_self]
  unfold verify_token
  rw [h1]
  by_cases hc : now + ttl < t
  · simp only [if_pos hc]
  · simp only [if_neg hc]

/-- C5 (amended): with a positive TTL, verifying
`create_access_token(claims, ttl)` before the TTL elapses succeeds and
returns the encoded mapping, which maps `"exp"` to the embedded expiry and
preserves every original claim entry EXCEPT an original `"exp"` entry,
which `create_access_token` overwrites (the amendment `c5_claim_cex`
forces); after the TTL has elapsed it fails with the expired-token error;
and any token whose payload was tampered with (differs from the signed
payload while keeping its tag) fails with the invalid-token error. -/
theorem c5_token_roundtrip_amended (key now ttl tGood : Nat) (data : Payload)
    (hfresh : tGood < now + ttl) :
    (verify_token key (create_access_token key data now (some ttl)) tGood =
        Except.ok (setClaim data "exp" (.n (now + ttl))) ∧
      lookupP (setClaim data "exp" (.n (now + ttl))) "exp" =
        some (.n (now + ttl)) ∧
      (∀ k v, k ≠ "exp" → lookupP data k = some v →
        lookupP (setClaim data "exp" (.n (now + ttl))) k = some v)) ∧
    (∀ tLate, now + ttl < tLate →
      verify_token key (create_access_token key data now (some ttl)) tLate =
        Except.error ⟨"Exception", "Token has expired"⟩) ∧
    (∀ p2 : Payload, p2 ≠ setClaim data "exp" (.n (now + ttl)) → ∀ tAny,
      verify_token key ⟨p2, (create_access_token key data now (some ttl)).tag⟩
          tAny =
        Except.error ⟨"Exception", "Invalid token"⟩) := by
  refine ⟨⟨?_, lookup_setClaim_self data "exp" (.n (now + ttl)), ?_⟩, ?_, ?_⟩
  · rw [verify_create]
    rw [if_neg (Nat.lt_asymm hfresh)]
  · intro k v hk hv
    rw [lookup_setClaim_ne data "exp" k (.n (now + ttl)) hk]
    exact hv
  · intro tLate hl
    rw [verify_create]
    rw [if_pos hl]
  · intro p2 hne tAny
    unfold verify_token jwtDecode
    have htag : (create_access_token key data now (some ttl)).tag =
        (key, setClaim data "exp" (.n (now + ttl))) := rfl
    rw [htag]
    have : ¬((key, setClaim data "exp" (.n (now + ttl))) = signTag key p2) := by
      unfold signTag
      intro hcontra
      exact hne ((congrArg Prod.snd hcontra).symm)
    rw [if_neg this]

/-- C5 witness: a concrete round trip — fresh verification succeeds with
the user claim preserved, late verification reports expiry, a tampered
payload reports invalidity. -/
theorem c5_token_roundtrip_witness :
    verify_token 7 (create_access_token 7 [("user", CVal.s "alice")] 1000
        (some 60)) 1030 =
      Except.ok [("user", CVal.s "alice"), ("exp", CVal.n 1060)] ∧
    verify_token 7 (create_access_token 7 [("user", CVal.s "alice")] 1000
        (some 60)) 2000 =
      Except.error ⟨"Exception", "Token has expired"⟩ ∧
    verify_token 7 ⟨[("user", CVal.s "bob")],
        (create_access_token 7 [("user", CVal.s "alice")] 1000 (some 60)).tag⟩
        1030 =
      Except.error ⟨"Exception", "Invalid token"⟩ := by
  obtain ⟨h1, h2, h3⟩ := c5_token_roundtrip_amended 7 1000 60 1030
    [("user", CVal.s "alice")] (by decide)
  refine ⟨?_, h2 2000 (by decide), h3 [("user", CVal.s "bob")] (by decide) 1030⟩
  rw [h1.1]
  rfl

/-- C5 counterexample to the claim as stated: for the claims mapping
`{"exp": 5}` the fresh verification succeeds, but the returned mapping does
NOT contain the original claim entry `"exp" ↦ 5` — `create_access_token`
overwrote it with the embedded expiry 1060. -/
theorem c5_claim_cex :
    verify_token 7 (create_access_token 7 [("exp", CVal.n 5)] 1000 (some 60))
        1000 =
      Except.ok [("exp", CVal.n 1060)] ∧
    lookupP [("exp", CVal.n 1060)] "exp" ≠ some (CVal.n 5) := by
  refine ⟨by rfl, by decide⟩

/-- C6 (amended): `verify_token` fails for a validly signed token with a
past integer `exp` claim by raising `Exception("Token has expired")`, and
fails for a bad signature — or a malformed (non-integer) `exp` claim — by
raising `Exception("Invalid token")`; the two failures are exactly
characterized below, but they are instances of the SAME generic exception
class, distinguishable only by their message strings (third conjunct), not
by a typed kind. -/
theorem c6_token_error_kinds_amended (key : Nat) (tok : Token) (now : Nat) :
    (verify_token key tok now = Except.error ⟨"Exception", "Token has expired"⟩ ↔
      tok.tag = signTag key tok.payload ∧
        ∃ e, lookupP tok.payload "exp" = some (.n e) ∧ e < now) ∧
    (verify_token key tok now = Except.error ⟨"Exception", "Invalid token"⟩ ↔
      tok.tag ≠ signTag key tok.payload ∨
        (tok.tag = signTag key tok.payload ∧
          ∃ s2, lookupP tok.payload "exp" = some (.s s2))) ∧
    (⟨"Exception", "Token has expired"⟩ : PyExc).cls =
      (⟨"Exception", "Invalid token"⟩ : PyExc).cls := by
  refine ⟨?_, ?_, rfl⟩
  · unfold verify_token jwtDecode
    by_cases hsig : tok.tag = signTag key tok.payload
    · rw [if_pos hsig]
      cases hl : lookupP tok.payload "exp" with
      | none => simp [hsig]
      | some v =>
        cases v with
        | s s2 => simp [hsig]
        | n e =>
          by_cases he : e < now
          · simp [hsig, he]
          · simp [hsig, he]
    · rw [if_neg hsig]
      simp [hsig]
  · unfold verify_token jwtDecode
    by_cases hsig : tok.tag = signTag key tok.payload
    · rw [if_pos hsig]
      cases hl : lookupP tok.payload "exp" with
      | none => simp [hsig]
      | some v =>
        cases v with
        | s s2 => simp [hsig]
        | n e =>
          by_cases he : e < now
          · simp [hsig, he]
          · simp [hsig, he]
    · rw [if_neg hsig]
      simp [hsig]

/-- C7 (confirmed): `check_file_safety` denies a delete/modify/write
operation exactly when the lowercased path starts with one of the
protected prefixes (the code compares `path.lower()` against
`protected.lower()`, i.e. case-insensitively); it denies an execute
operation exactly when the path's (lowercased) extension — the text after
the last dot — dotted, is in the dangerous-extension set; and it allows
every other operation value. -/
theorem c7_check_file_safety_spec (path op : String) :
    ((op = "delete" ∨ op = "modify" ∨ op = "write") →
      (check_file_safety path op = false ↔
        ∃ pre ∈ protectedPaths,
          leadsWith (lowChars pre.toList) (lowChars path.toList) = true)) ∧
    (op = "execute" →
      (check_file_safety path op = false ↔
        String.mk ('.' :: fileExt path) ∈ dangerousExt)) ∧
    (¬(op = "delete" ∨ op = "modify" ∨ op = "write" ∨ op = "execute") →
      check_file_safety path op = true) := by
  refine ⟨?_, ?_, ?_⟩
  · intro h
    have ht : (op == "delete" || op == "modify" || op == "write") = true := by
      rcases h with h | h | h <;> subst h <;> rfl
    have he : (op == "execute") = false := by
      rcases h with h | h | h <;> subst h <;> rfl
    cases hP : protectedPaths.any
        (fun pre => leadsWith (lowChars pre.toList) (lowChars path.toList)) with
    | true =>
      simp only [check_file_safety, ht, he, hP, Bool.true_and, Bool.false_and,
        if_true, if_false]
      constructor
      · intro _
        exact List.any_eq_true.mp hP
      · intro _
        trivial
    | false =>
      simp only [check_file_safety, ht, he, hP, Bool.true_and, Bool.false_and,
        if_true, if_false]
      constructor
      · intro hcontra
        cases hcontra
      · intro hex
        have hcontra := List.any_eq_true.mpr hex
        rw [hP] at hcontra
        cases hcontra
  · intro h
    subst h
    have ht : (("execute" == "delete") || ("execute" == "modify") ||
        ("execute" == "write")) = false := rfl
    have hiff : (dangerousExt.any (fun d => d.toList == '.' :: fileExt path)
        = true) ↔ String.mk ('.' :: fileExt path) ∈ dangerousExt := by
      rw [List.any_eq_true]
      constructor
      · rintro ⟨d, hd, hdl⟩
        have : d = String.mk ('.' :: fileExt path) := by
          cases d with
          | mk l => exact congrArg String.mk (by simpa using hdl)
        exact this ▸ hd
      · intro hmem
        exact ⟨String.mk ('.' :: fileExt path), hmem, by simp⟩
    cases hE : dangerousExt.any (fun d => d.toList == '.' :: fileExt path) with
    | true =>
      simp only [check_file_safety, ht, hE, Bool.false_and, Bool.true_and,
        if_false, if_true]
      exact ⟨fun _ => hiff.mp hE, fun _ => rfl⟩
    | false =>
      simp only [check_file_safety, ht, hE, Bool.false_and, Bool.true_and,
        if_false, if_true]
      constructor
      · intro hcontra
        cases hcontra
      · intro hmem
        have hcontra := hiff.mpr hmem
        rw [hE] at hcontra
        cases hcontra
  · intro h
    push_neg at h
    obtain ⟨h1, h2, h3, h4⟩ := h
    have e1 : (op == "delete") = false := beq_eq_false_iff_ne.mpr h1
    have e2 : (op == "modify") = false := beq_eq_false_iff_ne.mpr h2
    have e3 : (op == "write") = false := beq_eq_false_iff_ne.mpr h3
    have e4 : (op == "execute") = false := beq_eq_false_iff_ne.mpr h4
    simp [check_file_safety, e1, e2, e3, e4]

/-- C7 witness: the spec's own examples — deleting under `C:\Windows` is
denied, writing `/tmp/notes.txt` is allowed — plus a denied execute. -/
theorem c7_check_file_safety_witness :
    check_file_safety "C:\\Windows\\System32\\evil.dll" "delete" = false ∧
      check_file_safety "/tmp/notes.txt" "write" = true ∧
      check_file_safety "payload.ExE" "execute" = false := by
  refine ⟨?_, ?_, ?_⟩
  · exact ((c7_check_file_safety_spec "C:\\Windows\\System32\\evil.dll"
      "delete").1 (Or.inl rfl)).mpr ⟨"c:\\windows", by decide, by decide⟩
  · have h := (c7_check_file_safety_spec "/tmp/notes.txt" "write").1
      (Or.inr (Or.inr rfl))
    cases hb : check_file_safety "/tmp/notes.txt" "write" with
    | false => exact absurd (h.mp hb) (by decide)
    | true => rfl
  · exact ((c7_check_file_safety_spec "payload.ExE" "execute").2.1 rfl).mpr
      (by decide)

/-- Helper: the head surviving `dropWhile p` fails `p`. -/
theorem dropWhile_head_false (p : Char → Bool) :
    ∀ (l : List Char) c t, l.dropWhile p = c :: t → p c = false := by
  intro l
  induction l with
  | nil => intro c t h; simp at h
  | cons a l ih =>
    intro c t h
    rw [List.dropWhile_cons] at h
    by_cases ha : p a
    · rw [if_pos ha] at h
      exact ih c t h
    · rw [if_neg ha] at h
      cases h
      exact Bool.eq_false_iff.mpr ha

/-- Helper: a list whose head fails `p` is unchanged by `dropWhile p`. -/
theorem dropWhile_self_of_head_false (p : Char → Bool) (c : Char)
    (t : List Char) (h : p c = false) : (c :: t).dropWhile p = c :: t := by
  rw [List.dropWhile_cons, if_neg (by simp [h])]

/-- Helper: `dropWhile` keeps the last element when it keeps anything. -/
theorem getLastQ_dropWhile (p : Char → Bool) :
    ∀ l : List Char, l.dropWhile p ≠ [] →
      (l.dropWhile p).getLast? = l.getLast? := by
  intro l
  induction l with
  | nil => intro h; exact absurd rfl h
  | cons a l ih =>
    intro h
    rw [List.dropWhile_cons] at h ⊢
    by_cases ha : p a
    · rw [if_pos ha] at h ⊢
      rw [ih h]
      have hl : l ≠ [] := by
        intro he
        rw [he] at h
        exact h rfl
      cases l with
      | nil => exact absurd rfl hl
      | cons b t => rw [List.getLast?_cons_cons]
    · rw [if_neg ha]

/-- Helper: a list is unchanged by `dropWhile p` when its head (if any)
fails `p`. -/
theorem dropWhile_eq_self_of_headQ (p : Char → Bool) (l : List Char)
    (h : ∀ c, l.head? = some c → p c = false) : l.dropWhile p = l := by
  cases l with
  | nil => rfl
  | cons a t => exact dropWhile_self_of_head_false p a t (h a rfl)

/-- Helper: Python `strip` is idempotent. -/
theorem pyStrip_idem (l : List Char) : pyStrip (pyStrip l) = pyStrip l := by
  cases hB : (l.dropWhile wsChar).reverse.dropWhile wsChar with
  | nil =>
    have hp : pyStrip l = [] := by unfold pyStrip; rw [hB]; rfl
    rw [hp]
    rfl
  | cons c t =>
    have hp : pyStrip l = (c :: t).reverse := by unfold pyStrip; rw [hB]
    have hc : wsChar c = false :=
      dropWhile_head_false wsChar (l.dropWhile wsChar).reverse c t hB
    have hAne : (l.dropWhile wsChar).reverse ≠ [] := by
      intro he
      rw [he] at hB
      simp at hB
    have hAne2 : l.dropWhile wsChar ≠ [] := by
      intro he
      rw [he] at hAne
      exact hAne rfl
    obtain ⟨a, t2, hAeq⟩ := List.exists_cons_of_ne_nil hAne2
    have ha : wsChar a = false := dropWhile_head_false wsChar l a t2 hAeq
    have h1 : (c :: t).getLast? = (l.dropWhile wsChar).head? := by
      rw [← hB, getLastQ_dropWhile wsChar (l.dropWhile wsChar).reverse
        (by rw [hB]; simp)]
      exact List.getLast?_reverse _
    have hd1 : ((c :: t).reverse).dropWhile wsChar = (c :: t).reverse := by
      apply dropWhile_eq_self_of_headQ
      intro x hx
      rw [List.head?_reverse, h1, hAeq] at hx
      have : a = x := by simpa using hx
      rw [← this]
      exact ha
    rw [hp]
    unfold pyStrip
    rw [hd1, List.reverse_reverse, dropWhile_self_of_head_false wsChar c t hc]

/-- Helper: stripping never lengthens a list. -/
theorem length_pyStrip_le (l : List Char) : (pyStrip l).length ≤ l.length := by
  unfold pyStrip
  rw [List.length_reverse]
  refine le_trans (List.Sublist.length_le (List.dropWhile_sublist _)) ?_
  rw [List.length_reverse]
  exact List.Sublist.length_le (List.dropWhile_sublist _)

/-- Helper: stripping keeps only characters of the input. -/
theorem mem_pyStrip (c : Char) (l : List Char) (h : c ∈ pyStrip l) : c ∈ l := by
  unfold pyStrip at h
  rw [List.mem_reverse] at h
  have h2 := (List.dropWhile_sublist _).subset h
  rw [List.mem_reverse] at h2
  exact (List.dropWhile_sublist _).subset h2

/-- Helper: sanitized output never exceeds 1000 characters. -/
theorem sanitizeInputL_len (l : List Char) : (sanitizeInputL l).length ≤ 1000 := by
  unfold sanitizeInputL
  refine le_trans (length_pyStrip_le _) ?_
  by_cases hc : 1000 < (l.filter (fun c => !(forbiddenChar c))).length
  · rw [if_pos hc]
    exact List.length_take_le _ _
  · rw [if_neg hc]
    exact Nat.not_lt.mp hc

/-- Helper: a list that is already filtered, short and stripped is a fixed
point of sanitization. -/
theorem sanitizeInputL_fixed (x : List Char)
    (hf : x.filter (fun c => !(forbiddenChar c)) = x)
    (hl : ¬(1000 < x.length)) (hs : pyStrip x = x) : sanitizeInputL x = x := by
  show pyStrip (if 1000 < (x.filter (fun c => !(forbiddenChar c))).length then
    List.take 1000 (x.filter (fun c => !(forbiddenChar c)))
    else x.filter (fun c => !(forbiddenChar c))) = x
  rw [hf, if_neg hl, hs]

/-- Helper: sanitization is idempotent at the list level. -/
theorem sanitizeInputL_idem (l : List Char) :
    sanitizeInputL (sanitizeInputL l) = sanitizeInputL l := by
  have hfil : (sanitizeInputL l).filter (fun c => !(forbiddenChar c)) =
      sanitizeInputL l := by
    apply List.filter_eq_self.mpr
    intro a ha
    unfold sanitizeInputL at ha
    have h1 := mem_pyStrip a _ ha
    have h2 : a ∈ l.filter (fun c => !(forbiddenChar c)) := by
      by_cases hc : 1000 < (l.filter (fun c => !(forbiddenChar c))).length
      · rw [if_pos hc] at h1
        exact List.take_subset _ _ h1
      · rw [if_neg hc] at h1
        exact h1
    exact (List.mem_filter.mp h2).2
  have hstrip : pyStrip (sanitizeInputL l) = sanitizeInputL l := by
    unfold sanitizeInputL
    exact pyStrip_idem _
  exact sanitizeInputL_fixed (sanitizeInputL l) hfil
    (Nat.not_lt.mpr (sanitizeInputL_len l)) hstrip

/-- C9 (confirmed): `sanitize_input` equals the spec's pipeline — remove
every character of the forbidden set, truncate to at most 1000 characters,
trim surrounding whitespace — and is consequently idempotent with output
length never exceeding 1000 characters. -/
theorem c9_sanitize_input_spec (s : String) :
    sanitize_input s = String.mk (sanitizeSpecL s.toList) ∧
      sanitize_input (sanitize_input s) = sanitize_input s ∧
      (sanitize_input s).length ≤ 1000 := by
  refine ⟨?_, ?_, ?_⟩
  · unfold sanitize_input sanitizeSpecL
    congr 1
    show pyStrip (if 1000 < (s.toList.filter (fun c => !(forbiddenChar c))).length
      then List.take 1000 (s.toList.filter (fun c => !(forbiddenChar c)))
      else s.toList.filter (fun c => !(forbiddenChar c))) =
      pyStrip (List.take 1000 (s.toList.filter (fun c => !(forbiddenChar c))))
    by_cases hc : 1000 < (s.toList.filter (fun c => !(forbiddenChar c))).length
    · rw [if_pos hc]
    · rw [if_neg hc]
      rw [List.take_of_length_le (Nat.not_lt.mp hc)]
  · unfold sanitize_input
    congr 1
    exact sanitizeInputL_idem s.toList
  · show (String.mk (sanitizeInputL s.toList)).length ≤ 1000
    have : (String.mk (sanitizeInputL s.toList)).length =
        (sanitizeInputL s.toList).length := rfl
    rw [this]
    exact sanitizeInputL_len s.toList

/-- Helper: pruning never raises the retained total. -/
theorem totalCount_prune_le (h : List (Nat × Nat)) (now : Nat) :
    totalCount (pruneHistory h now) ≤ totalCount h := by
  induction h with
  | nil => exact le_refl 0
  | cons e t ih =>
    unfold pruneHistory at ih ⊢
    by_cases he : (now - 60 < e.1)
    · simp [totalCount, List.filter_cons, he] at ih ⊢
      omega
    · simp [totalCount, List.filter_cons, he] at ih ⊢
      omega

/-- Helper: bumping a bucket adds exactly one to the retained total. -/
theorem totalCount_bump (h : List (Nat × Nat)) (k : Nat) :
    totalCount (bumpBucket h k) = totalCount h + 1 := by
  induction h with
  | nil => rfl
  | cons e t ih =>
    unfold bumpBucket
    by_cases he : (e.1 == k)
    · simp [he, totalCount] at ih ⊢
      omega
    · simp [he, totalCount] at ih ⊢
      omega

/-- Helper: the rate-limit check preserves the window invariant. -/
theorem checkRateLimit_inv (st : SecState) (now : Nat)
    (h : totalCount st.history ≤ maxCommandsPerMinute) :
    totalCount (checkRateLimit st now).2.history ≤ maxCommandsPerMinute := by
  unfold checkRateLimit
  have hp : totalCount (pruneHistory st.history now) ≤ maxCommandsPerMinute :=
    le_trans (totalCount_prune_le st.history now) h
  by_cases hrl : maxCommandsPerMinute ≤ totalCount (pruneHistory st.history now)
  · rw [if_pos hrl]
    exact hp
  · rw [if_neg hrl]
    show totalCount (bumpBucket (pruneHistory st.history now) _) ≤ _
    rw [totalCount_bump]
    omega

/-- Helper: one `is_command_safe` call preserves the window invariant. -/
theorem is_command_safe_inv (st : SecState) (now : Nat) (c t : String)
    (h : totalCount st.history ≤ maxCommandsPerMinute) :
    totalCount (is_command_safe st now c t).2.history ≤ maxCommandsPerMinute := by
  unfold is_command_safe
  by_cases h1 : denyHit c
  · simpa [h1] using h
  by_cases h2 : fastAccept c t
  · simpa [h1, h2] using h
  by_cases h3 : heuristicHit c
  · simpa [h1, h2, h3] using h
  by_cases h4 : rootHit c
  · simpa [h1, h2, h3, h4] using h
  by_cases h5 : traversalHit c
  · simpa [h1, h2, h3, h4, h5] using h
  have hrc := checkRateLimit_inv st now h
  cases hb : (checkRateLimit st now).1 <;>
    simpa [h1, h2, h3, h4, h5, hb] using hrc

/-- C10 (confirmed): starting from the empty window, after any sequence of
`is_command_safe` calls (each with its own clock reading, command and
command_type) the total of all retained rate-window bucket counts is at
most `max_commands_per_minute`. -/
theorem c10_rate_window_invariant (calls : List (Nat × String × String)) :
    totalCount (runSafe ⟨[]⟩ calls).history ≤ maxCommandsPerMinute := by
  suffices h : ∀ st : SecState, totalCount st.history ≤ maxCommandsPerMinute →
      totalCount (runSafe st calls).history ≤ maxCommandsPerMinute by
    exact h ⟨[]⟩ (by decide)
  induction calls with
  | nil => intro st h; exact h
  | cons x xs ih =>
    intro st h
    show totalCount (runSafe (is_command_safe st x.1 x.2.1 x.2.2).2 xs).history ≤ _
    exact ih _ (is_command_safe_inv st x.1 x.2.1 x.2.2 h)

/-- C6 counterexample to the claim as stated: an expired verification and a
tampered-token verification both raise errors of the SAME exception class
("Exception"); the failures differ only in their message strings, so they
are not typed failure kinds the caller can branch on. -/
theorem c6_claim_cex :
    verify_token 7 (create_access_token 7 [("u", CVal.s "a")] 1000 (some 60))
        2000 = Except.error ⟨"Exception", "Token has expired"⟩ ∧
      verify_token 7 ⟨[("u", CVal.s "b")],
          (create_access_token 7 [("u", CVal.s "a")] 1000 (some 60)).tag⟩ 2000 =
        Except.error ⟨"Exception", "Invalid token"⟩ ∧
      (⟨"Exception", "Token has expired"⟩ : PyExc).cls =
        (⟨"Exception", "Invalid token"⟩ : PyExc).cls := by
  exact ⟨rfl, rfl, rfl⟩
